import Mathlib

/-
  Verification development for the vault-audit-metrics repository.

  The Go sources (src/auditevent.go, src/auditprocessor.go, src/main.go) are
  shallowly embedded below.  Wall-clock instants are modelled as Int values
  counting nanoseconds since the Unix epoch, matching Go UnixNano and the
  nanosecond resolution of time.Duration.  Library calls at the interface
  boundary are embedded from their documented behaviour:
  time.Parse with the RFC3339Nano layout, the patrickmn/go-cache expiring
  map, and the prometheus counter, histogram and gauge vectors.  Fallible
  operations return Option, and a Go nil-pointer panic is modelled as an
  explicit panicked result constructor.
-/

namespace VaultAuditMetrics

/-! ### Timestamp parsing (time.Parse with the RFC3339Nano layout) -/

/-- Reads exactly n decimal digit characters, returning the value and the
remaining input, as the fixed-width numeric fields of the RFC3339 layout do. -/
def parseFixedNat (acc : Nat) : Nat → List Char → Option (Nat × List Char)
  | 0, cs => some (acc, cs)
  | _ + 1, [] => none
  | n + 1, c :: cs =>
    if c.isDigit then parseFixedNat (acc * 10 + (c.toNat - 48)) n cs else none

/-- Consumes one expected literal character of the layout. -/
def expectChar (ch : Char) : List Char → Option (List Char)
  | [] => none
  | c :: cs => if c = ch then some cs else none

/-- Converts a list of fractional-second digits to nanoseconds.  Go keeps at
most nine digits of the fraction and scales shorter fractions up. -/
def fracNanos (ds : List Nat) : Nat :=
  (ds.take 9).foldl (fun a d => a * 10 + d) 0 * 10 ^ (9 - (ds.take 9).length)

/-- Gregorian leap-year rule used by the Go time package. -/
def isLeapYear (y : Nat) : Bool :=
  y % 4 == 0 && (y % 100 != 0 || y % 400 == 0)

/-- Number of days in a month, as Go daysIn. -/
def daysInMonth (y m : Nat) : Nat :=
  if m = 2 then (if isLeapYear y then 29 else 28)
  else if m = 4 ∨ m = 6 ∨ m = 9 ∨ m = 11 then 30
  else 31

/-- Days between a civil date and 1970-01-01, by the standard civil-calendar
day count.  Valid for years 0 to 9999 with 1-based month and day. -/
def daysFromCivil (y m d : Nat) : Int :=
  let ys := if m ≤ 2 then y + 399 else y + 400
  let era := ys / 400
  let yoe := ys % 400
  let mp := (m + 9) % 12
  let doy := (153 * mp + 2) / 5 + d - 1
  let doe := yoe * 365 + yoe / 4 - yoe / 100 + doy
  ((era * 146097 + doe : Nat) : Int) - 865565

/-- Parses the timezone suffix of an RFC3339 timestamp: the literal Z, or a
signed hh:mm offset bounded as in Go, consuming the whole remaining input.
Returns the offset east of UTC in seconds. -/
def parseOffset : List Char → Option Int
  | ['Z'] => some 0
  | c :: rest =>
    if c = '+' ∨ c = '-' then
      match parseFixedNat 0 2 rest with
      | none => none
      | some (oh, rest2) =>
        match rest2 with
        | ':' :: rest3 =>
          match parseFixedNat 0 2 rest3 with
          | none => none
          | some (om, rest4) =>
            if rest4 = [] ∧ oh ≤ 23 ∧ om ≤ 59 then
              some (if c = '-' then -(((oh * 3600 + om * 60 : Nat) : Int))
                    else ((oh * 3600 + om * 60 : Nat) : Int))
            else none
        | _ => none
    else none
  | _ => none

/-- Embedding of time.Parse with the time.RFC3339Nano layout, as called at
src/auditprocessor.go lines 140 and 145.  Returns the instant in nanoseconds
since the Unix epoch, or none on any syntax or range error. -/
def parseRFC3339Nano (s : String) : Option Int := do
  let cs := s.data
  let (y, cs) ← parseFixedNat 0 4 cs
  let cs ← expectChar '-' cs
  let (mo, cs) ← parseFixedNat 0 2 cs
  let cs ← expectChar '-' cs
  let (d, cs) ← parseFixedNat 0 2 cs
  let cs ← expectChar 'T' cs
  let (hh, cs) ← parseFixedNat 0 2 cs
  let cs ← expectChar ':' cs
  let (mi, cs) ← parseFixedNat 0 2 cs
  let cs ← expectChar ':' cs
  let (ss, cs) ← parseFixedNat 0 2 cs
  let (nanos, cs) :=
    match cs with
    | '.' :: rest =>
      let ds := rest.takeWhile Char.isDigit
      if ds.length = 0 then ((0 : Nat), '.' :: rest)
      else (fracNanos (ds.map (fun ch => ch.toNat - 48)), rest.drop ds.length)
    | other => ((0 : Nat), other)
  let off ← parseOffset cs
  if 1 ≤ mo ∧ mo ≤ 12 ∧ 1 ≤ d ∧ d ≤ daysInMonth y mo ∧ hh ≤ 23 ∧ mi ≤ 59 ∧ ss ≤ 59 then
    some ((daysFromCivil y mo d * 86400 + ((hh * 3600 + mi * 60 + ss : Nat) : Int)) * 1000000000
      + ((nanos : Nat) : Int) - off * 1000000000)
  else none

/-- Duration in nanoseconds converted to seconds, as Go Duration.Seconds
applied to the difference of two times. -/
def nanosToSeconds (n : Int) : Rat := (n : Rat) / 1000000000

/-! ### The correlation store (patrickmn/go-cache), src/auditprocessor.go line 38 -/

/-- One stored cache item: the stored value (the request timestamp string,
stored as interface and read back through fmt.Sprint) and its absolute expiry
instant in nanoseconds, zero meaning no expiry. -/
structure CacheItem where
  object : String
  expiration : Int
deriving DecidableEq

/-- The expiring map: the default TTL handed to cache.New (cacheTTL), and the
key-to-item map, kept as an association list with at most one entry per key. -/
structure Cache where
  defaultExpiration : Int
  items : List (String × CacheItem)
deriving DecidableEq

/-- First item stored under a key, mirroring a Go map lookup. -/
def lookupItem : List (String × CacheItem) → String → Option CacheItem
  | [], _ => none
  | (k2, it) :: rest, k => if k2 = k then some it else lookupItem rest k

/-- go-cache Set: a duration of zero selects the default TTL; a positive
resolved duration gives expiry now plus TTL, otherwise the item never
expires.  The new item replaces any previous item with the same key. -/
def Cache.set (c : Cache) (now : Int) (k v : String) (d : Int) : Cache :=
  ⟨c.defaultExpiration,
    (k, ⟨v, if 0 < (if d = 0 then c.defaultExpiration else d)
            then now + (if d = 0 then c.defaultExpiration else d) else 0⟩)
      :: c.items.filter (fun p => !(p.1 == k))⟩

/-- go-cache Get: a pure read; an item whose expiry is positive and strictly
in the past is reported as absent, but is not removed. -/
def Cache.get (c : Cache) (now : Int) (k : String) : Option String :=
  match lookupItem c.items k with
  | none => none
  | some it => if 0 < it.expiration ∧ it.expiration < now then none else some it.object

/-- go-cache DeleteExpired, run by the background sweep at the cleanup
interval: removes exactly the items whose expiry is positive and past. -/
def Cache.deleteExpired (c : Cache) (now : Int) : Cache :=
  ⟨c.defaultExpiration,
    c.items.filter (fun p => !(0 < p.2.expiration && p.2.expiration < now))⟩

/-- go-cache ItemCount: the raw size of the map, which by its documentation
may include items that have expired but have not yet been cleaned up. -/
def itemCount (c : Cache) : Nat := c.items.length

/-- The live-entry count in the words of the spec: entries inserted within
the last TTL (their expiry not yet passed) and not superseded by a later put
with the same id.  Stated from the spec for comparison with itemCount. -/
def liveCountSpec (c : Cache) (now : Int) : Nat :=
  (c.items.filter (fun p => !(0 < p.2.expiration && p.2.expiration < now))).length

/-- Body written by the healthz handler, src/auditprocessor.go line 173. -/
def healthzBody (c : Cache) : String :=
  "\x7b\"timestamp_cache_size\":" ++ toString (itemCount c) ++ "\x7d"

/-! ### Event model (src/auditevent.go) -/

/-- The audit event type strings, src/auditevent.go lines 10-13. -/
def AuditEventTypeRequest : String := "request"

/-- The response audit event type string. -/
def AuditEventTypeResponse : String := "response"

/-- The request object inside a decoded audit entry: the fields the program
reads (ID, Operation rendered through fmt.Sprint, Path). -/
structure AuditRequest where
  id : String
  operation : String
  path : String
deriving DecidableEq

/-- The decoded audit entry (hashicorp vault audit.AuditResponseEntry), with
the fields the program reads: Type, Time, Request (a pointer, hence Option),
and Error. -/
structure AuditResponseEntry where
  type : String
  time : String
  request : Option AuditRequest
  error : String
deriving DecidableEq

/-- The prometheus label tuple produced by AuditEvent.PromLabels,
src/auditevent.go lines 21-27. -/
structure Labels where
  operation : String
  path : String
  error : String
deriving DecidableEq

/-- PromLabels dereferences entry.Request unconditionally; the none result
models the nil-pointer panic raised when no request object was decoded. -/
def promLabels (e : AuditResponseEntry) : Option Labels :=
  e.request.map (fun r => ⟨r.operation, r.path, e.error⟩)

/-! ### Metrics registry (prometheus vectors, src/auditprocessor.go lines 45-74) -/

/-- Value of a counter series, zero when the series was never created. -/
def counterValue : List (Labels × Nat) → Labels → Nat
  | [], _ => 0
  | (k, v) :: rest, l => if k = l then v else counterValue rest l

/-- Whether a series for the label tuple has been created in the vector. -/
def seriesExists : List (Labels × Nat) → Labels → Bool
  | [], _ => false
  | (k, _) :: rest, l => if k = l then true else seriesExists rest l

/-- GetMetricWith followed by Inc: creates the series on first use at zero
and increments it. -/
def incCounter : List (Labels × Nat) → Labels → List (Labels × Nat)
  | [], l => [(l, 1)]
  | (k, v) :: rest, l => if k = l then (k, v + 1) :: rest else (k, v) :: incCounter rest l

/-- Observations recorded in a histogram series, newest first. -/
def histObs : List (Labels × List Rat) → Labels → List Rat
  | [], _ => []
  | (k, vs) :: rest, l => if k = l then vs else histObs rest l

/-- GetMetricWith followed by Observe on the histogram vector. -/
def observeHist : List (Labels × List Rat) → Labels → Rat → List (Labels × List Rat)
  | [], l, v => [(l, [v])]
  | (k, vs) :: rest, l, v =>
    if k = l then (k, v :: vs) :: rest else (k, vs) :: observeHist rest l v

/-- The metric state of the process: the requests and responses vectors, the
latency histogram vector, and the single cache-size gauge series (none until
first set). -/
structure Metrics where
  requests : List (Labels × Nat)
  responses : List (Labels × Nat)
  histogram : List (Labels × List Rat)
  cacheSize : Option Rat
deriving DecidableEq

/-- Gauge Set on the cache-size gauge, with the count cast as Go float64. -/
def setCacheSize (m : Metrics) (n : Nat) : Metrics :=
  { m with cacheSize := some ((n : Rat)) }

/-! ### Event processor (src/auditprocessor.go lines 106-157) -/

/-- The mutable state the processor touches: the timestamp cache and the
metrics registry. -/
structure PState where
  cache : Cache
  metrics : Metrics
deriving DecidableEq

/-- Outcome of processing one event: a new state, or a runtime panic from a
nil Request dereference. -/
inductive ProcResult where
  | ok (s : PState)
  | panicked
deriving DecidableEq

/-- State after a dispatched processing step; a panic kills only that
goroutine, leaving the shared state as it was. -/
def stepState (s : PState) (r : ProcResult) : PState :=
  match r with
  | ProcResult.ok s2 => s2
  | ProcResult.panicked => s

/-- observeLatency, src/auditprocessor.go lines 133-157, for an event whose
Request is r: look the id up in the cache; on a miss, or a parse failure of
either timestamp, return with the metrics unchanged; otherwise record the
response-minus-request difference in seconds on the histogram series of the
event labels.  acqHist is whether GetMetricWith on the histogram succeeds;
on its failure the observation is dropped. -/
def observeLatencyM (now : Int) (acqHist : Bool) (e : AuditResponseEntry)
    (r : AuditRequest) (s : PState) : Metrics :=
  match Cache.get s.cache now r.id with
  | none => s.metrics
  | some storedTime =>
    match parseRFC3339Nano storedTime with
    | none => s.metrics
    | some reqT =>
      match parseRFC3339Nano e.time with
      | none => s.metrics
      | some respT =>
        if acqHist then
          { s.metrics with histogram :=
              (observeHist s.metrics.histogram ⟨r.operation, r.path, e.error⟩
                (nanosToSeconds (respT - reqT))) }
        else s.metrics

/-- process, src/auditprocessor.go lines 106-130.  A request event stores its
timestamp under its id (default TTL) and increments the requests counter; a
response event runs observeLatency and then increments the responses counter;
any other type only logs.  The acq flags state whether the corresponding
GetMetricWith call succeeds; on failure the method logs and returns, dropping
that single increment.  Dereferencing an absent Request panics. -/
def process (now : Int) (acqReq acqResp acqHist : Bool)
    (e : AuditResponseEntry) (s : PState) : ProcResult :=
  if e.type = AuditEventTypeRequest then
    match e.request with
    | none => ProcResult.panicked
    | some r =>
      if acqReq then
        ProcResult.ok ⟨Cache.set s.cache now r.id e.time 0,
          { s.metrics with requests :=
              (incCounter s.metrics.requests ⟨r.operation, r.path, e.error⟩) }⟩
      else
        ProcResult.ok ⟨Cache.set s.cache now r.id e.time 0, s.metrics⟩
  else if e.type = AuditEventTypeResponse then
    match e.request with
    | none => ProcResult.panicked
    | some r =>
      if acqResp then
        ProcResult.ok ⟨s.cache,
          { (observeLatencyM now acqHist e r s) with responses :=
              (incCounter (observeLatencyM now acqHist e r s).responses
                ⟨r.operation, r.path, e.error⟩) }⟩
      else
        ProcResult.ok ⟨s.cache, observeLatencyM now acqHist e r s⟩
  else ProcResult.ok s

/-- Outcome of one iteration of the gauge refresher. -/
inductive MonitorResult where
  | ok (m : Metrics)
  | panicked
deriving DecidableEq

/-- One iteration of monitorTimestampCache, src/auditprocessor.go lines
160-169: acquire the gauge series and set it to ItemCount.  When the
acquisition fails the code logs the error but does not return, and then
calls Set on the nil observer, which panics. -/
def monitorStep (acqOk : Bool) (c : Cache) (m : Metrics) : MonitorResult :=
  if acqOk then MonitorResult.ok (setCacheSize m (itemCount c))
  else MonitorResult.panicked

/-! ### Connection handler (src/auditprocessor.go lines 77-103) -/

/-- Observable operations of the handler on one connection: a blocking read
returning a line, a SetReadDeadline call with its success flag, a dispatch of
a decoded event to the processor, and the deferred connection close. -/
inductive HandleOp where
  | readLine (line : String)
  | setDeadline (ok : Bool)
  | dispatch (e : AuditResponseEntry)
  | closeConn
deriving DecidableEq

/-- The scanner loop of handle: for each line read, push the read deadline
back (a failure logs and skips the line), decode the line (a failure logs and
skips the line), and dispatch a decoded event.  decode stands for
json.Unmarshal into audit.AuditResponseEntry, and the list ddl gives the
outcomes of the successive SetReadDeadline calls, an exhausted list meaning
success. -/
def handleLoop (decode : String → Option AuditResponseEntry) :
    List String → List Bool → List HandleOp
  | [], _ => []
  | l :: ls, dd =>
    HandleOp.readLine l :: HandleOp.setDeadline (dd.headD true) ::
      ((if dd.headD true then
          match decode l with
          | some e => [HandleOp.dispatch e]
          | none => []
        else []) ++ handleLoop decode ls dd.tail)

/-- Full trace of handle on one connection: the scanner loop over the lines
the stream yields before it ends, then the deferred close. -/
def handleTrace (decode : String → Option AuditResponseEntry)
    (lines : List String) (ddl : List Bool) : List HandleOp :=
  handleLoop decode lines ddl ++ [HandleOp.closeConn]

/-- The event carried by a dispatch operation, if any. -/
def dispatchOf : HandleOp → Option AuditResponseEntry
  | HandleOp.dispatch e => some e
  | _ => none

/-- Events dispatched to the processor along a trace. -/
def dispatches (tr : List HandleOp) : List AuditResponseEntry :=
  tr.filterMap dispatchOf

/-- Whether an operation closes the connection. -/
def isClose : HandleOp → Bool
  | HandleOp.closeConn => true
  | _ => false

/-- Number of connection closes in a trace. -/
def countClose (tr : List HandleOp) : Nat :=
  (tr.filter isClose).length

/-- Checks that every blocking read in the trace happens while a read
deadline is armed; the flag records whether a deadline has been set
successfully before the current point. -/
def readsGuarded : Bool → List HandleOp → Bool
  | _, [] => true
  | armed, HandleOp.setDeadline ok :: rest => readsGuarded (armed || ok) rest
  | armed, HandleOp.readLine _ :: rest => armed && readsGuarded armed rest
  | armed, _ :: rest => readsGuarded armed rest

/-! ### Runs of dispatched events -/

/-- One dispatched processing step: the processing instant, the success flags
of the three GetMetricWith calls it may make, and the decoded entry. -/
structure StepInput where
  now : Int
  acqReq : Bool
  acqResp : Bool
  acqHist : Bool
  entry : AuditResponseEntry
deriving DecidableEq

/-- Shared state after one dispatched step. -/
def stepRun (i : StepInput) (s : PState) : PState :=
  stepState s (process i.now i.acqReq i.acqResp i.acqHist i.entry s)

/-- Shared state after a sequence of dispatched steps. -/
def runEvents : List StepInput → PState → PState
  | [], s => s
  | i :: is, s => runEvents is (stepRun i s)

/-- Whether a step increments (and hence creates) the requests series of the
given label tuple: a request-typed entry with a present Request whose labels
match, whose counter acquisition succeeds. -/
def touchesReq (l : Labels) (i : StepInput) : Bool :=
  decide (i.entry.type = AuditEventTypeRequest) && i.acqReq &&
    (match i.entry.request with
     | some r => decide (Labels.mk r.operation r.path i.entry.error = l)
     | none => false)

/-- Whether a step increments (and hence creates) the responses series of the
given label tuple. -/
def touchesResp (l : Labels) (i : StepInput) : Bool :=
  decide (i.entry.type = AuditEventTypeResponse) && i.acqResp &&
    (match i.entry.request with
     | some r => decide (Labels.mk r.operation r.path i.entry.error = l)
     | none => false)

/-! ### Concrete states used by the scenario theorem and the witnesses -/

/-- The default cache TTL of five minutes, flag cache-ttl in src/main.go, in
nanoseconds. -/
def ttlNs : Int := 300000000000

/-- Fresh processor state: empty cache with the default TTL, no metric
series created yet. -/
def pState0 : PState := ⟨⟨ttlNs, []⟩, ⟨[], [], [], none⟩⟩

/-- The request event of the spec scenario. -/
def c2req : AuditResponseEntry :=
  ⟨AuditEventTypeRequest, "2024-01-01T00:00:00Z", some ⟨"abc", "read", "secret/x"⟩, ""⟩

/-- The response event of the spec scenario. -/
def c2resp : AuditResponseEntry :=
  ⟨AuditEventTypeResponse, "2024-01-01T00:00:02Z", some ⟨"abc", "read", "secret/x"⟩, ""⟩

/-- State after processing the scenario request at instant 0 and the
scenario response two seconds later, all metric acquisitions succeeding. -/
def c2final : PState :=
  runEvents [⟨0, true, true, true, c2req⟩, ⟨2000000000, true, true, true, c2resp⟩] pState0

/-- A request event with a timestamp later than the paired response, for the
negative-latency witness. -/
def c1e1 : AuditResponseEntry :=
  ⟨AuditEventTypeRequest, "2024-01-01T00:00:02Z", some ⟨"abc", "read", "secret/x"⟩, ""⟩

/-- The paired response event with the earlier timestamp. -/
def c1e2 : AuditResponseEntry :=
  ⟨AuditEventTypeResponse, "2024-01-01T00:00:01Z", some ⟨"abc", "read", "secret/x"⟩, ""⟩

/-- State after the negative-latency request step. -/
def c1s1 : PState := stepRun ⟨0, true, true, true, c1e1⟩ pState0

/-- State after the negative-latency response step. -/
def c1s2 : PState := stepRun ⟨5, true, true, true, c1e2⟩ c1s1

/-- A cache holding one entry inserted at instant 0 with TTL 1 nanosecond,
viewed after the TTL elapsed but before any cleanup sweep. -/
def c4cache : Cache := Cache.set ⟨1, []⟩ 0 "a" "2024-01-01T00:00:00Z" 0

/-- A sample decoder for the handler witnesses: one recognised line, all
others malformed. -/
def sampleDecode : String → Option AuditResponseEntry := fun str =>
  if str = "good" then
    some ⟨AuditEventTypeRequest, "2024-01-01T00:00:00Z", some ⟨"id1", "read", "p"⟩, ""⟩
  else none

/-- A state whose cache holds an unparseable stored request timestamp under
the id abc, still unexpired at instant 0. -/
def c6state : PState := ⟨⟨ttlNs, [("abc", ⟨"garbage", 100⟩)]⟩, ⟨[], [], [], none⟩⟩

/-! ### Helper lemmas about the metric vectors -/

/-- Incrementing a counter raises the incremented series by one and leaves
every other series unchanged. -/
theorem counterValue_incCounter (m : List (Labels × Nat)) (k l : Labels) :
    counterValue (incCounter m k) l
      = counterValue m l + (if k = l then 1 else 0) := by
  induction m with
  | nil =>
    by_cases h : k = l <;> simp [incCounter, counterValue, h]
  | cons p rest ih =>
    obtain ⟨k2, v⟩ := p
    by_cases h2 : k2 = k
    · by_cases h : k = l
      · simp [incCounter, counterValue, h2, h2.trans h, h]
      · have hk2l : ¬(k2 = l) := fun he => h (h2.symm.trans he)
        simp [incCounter, counterValue, h2, hk2l, h]
    · by_cases h : k2 = l
      · have hkl : ¬(k = l) := fun he => h2 (h.trans he.symm)
        have hlk : ¬(l = k) := fun he => hkl he.symm
        simp [incCounter, counterValue, h2, h, hkl, hlk]
      · simp [incCounter, counterValue, h2, h, ih]

/-- Incrementing a counter creates exactly the incremented series. -/
theorem seriesExists_incCounter (m : List (Labels × Nat)) (k l : Labels) :
    seriesExists (incCounter m k) l = (seriesExists m l || decide (k = l)) := by
  induction m with
  | nil =>
    by_cases h : k = l <;> simp [incCounter, seriesExists, h]
  | cons p rest ih =>
    obtain ⟨k2, v⟩ := p
    by_cases h2 : k2 = k
    · by_cases h : k2 = l
      · have hkl : k = l := h2.symm.trans h
        simp [incCounter, seriesExists, h2, h, hkl]
      · have hkl : ¬(k = l) := fun he => h (h2.trans he)
        simp [incCounter, seriesExists, h2, h, hkl]
    · by_cases h : k2 = l
      · have hlk : ¬(l = k) := fun he => h2 (h.trans he)
        simp [incCounter, seriesExists, h2, h, hlk]
      · simp [incCounter, seriesExists, h2, h, ih]

/-- An observation is prepended to the series of its own label tuple. -/
theorem histObs_observeHist_self (h : List (Labels × List Rat)) (l : Labels) (v : Rat) :
    histObs (observeHist h l v) l = v :: histObs h l := by
  induction h with
  | nil => simp [observeHist, histObs]
  | cons p rest ih =>
    obtain ⟨k, vs⟩ := p
    by_cases hk : k = l <;> simp [observeHist, histObs, hk, ih]

/-- An observation leaves every other histogram series unchanged. -/
theorem histObs_observeHist_ne (h : List (Labels × List Rat)) (l l2 : Labels) (v : Rat)
    (hne : ¬(l2 = l)) : histObs (observeHist h l v) l2 = histObs h l2 := by
  have hne2 : ¬(l = l2) := fun he => hne he.symm
  induction h with
  | nil => simp [observeHist, histObs, hne2]
  | cons p rest ih =>
    obtain ⟨k, vs⟩ := p
    by_cases hk : k = l
    · have hkl2 : ¬(k = l2) := fun he => hne2 (hk.symm.trans he)
      simp [observeHist, histObs, hk, hkl2, hne2]
    · by_cases hk2 : k = l2 <;> simp [observeHist, histObs, hk, hk2, hne2, hne, ih]

/-- observeLatency never touches the requests counter vector. -/
theorem observeLatencyM_requests (now : Int) (c : Bool) (e : AuditResponseEntry)
    (r : AuditRequest) (s : PState) :
    (observeLatencyM now c e r s).requests = s.metrics.requests := by
  unfold observeLatencyM
  repeat' split
  all_goals rfl

/-- observeLatency never touches the responses counter vector. -/
theorem observeLatencyM_responses (now : Int) (c : Bool) (e : AuditResponseEntry)
    (r : AuditRequest) (s : PState) :
    (observeLatencyM now c e r s).responses = s.metrics.responses := by
  unfold observeLatencyM
  repeat' split
  all_goals rfl

/-- observeLatency never touches the cache-size gauge. -/
theorem observeLatencyM_cacheSize (now : Int) (c : Bool) (e : AuditResponseEntry)
    (r : AuditRequest) (s : PState) :
    (observeLatencyM now c e r s).cacheSize = s.metrics.cacheSize := by
  unfold observeLatencyM
  repeat' split
  all_goals rfl

/-! ### Helper lemmas about process -/

/-- Computed form of process on a request event with all acquisitions
succeeding. -/
theorem process_request_eq (now : Int) (b c : Bool) (r : AuditRequest)
    (t er : String) (s : PState) :
    process now true b c ⟨AuditEventTypeRequest, t, some r, er⟩ s
      = ProcResult.ok ⟨Cache.set s.cache now r.id t 0,
          { s.metrics with requests :=
              (incCounter s.metrics.requests ⟨r.operation, r.path, er⟩) }⟩ := rfl

/-- Computed form of process on a response event with all acquisitions
succeeding. -/
theorem process_response_eq (now : Int) (a c : Bool) (r : AuditRequest)
    (t er : String) (s : PState) :
    process now a true c ⟨AuditEventTypeResponse, t, some r, er⟩ s
      = ProcResult.ok ⟨s.cache,
          { (observeLatencyM now c ⟨AuditEventTypeResponse, t, some r, er⟩ r s) with
              responses :=
              (incCounter
                (observeLatencyM now c ⟨AuditEventTypeResponse, t, some r, er⟩ r s).responses
                ⟨r.operation, r.path, er⟩) }⟩ := rfl

/-- A request event without a decoded Request object panics. -/
theorem process_request_none (now : Int) (a b c : Bool) (t er : String) (s : PState) :
    process now a b c ⟨AuditEventTypeRequest, t, none, er⟩ s = ProcResult.panicked := rfl

/-- A response event without a decoded Request object panics. -/
theorem process_response_none (now : Int) (a b c : Bool) (t er : String) (s : PState) :
    process now a b c ⟨AuditEventTypeResponse, t, none, er⟩ s = ProcResult.panicked := rfl

/-- A request event with a decoded Request object never panics. -/
theorem process_request_some_ne (now : Int) (a b c : Bool) (r : AuditRequest)
    (t er : String) (s : PState) :
    ¬(process now a b c ⟨AuditEventTypeRequest, t, some r, er⟩ s = ProcResult.panicked) := by
  cases a <;> exact fun h => ProcResult.noConfusion h

/-- A response event with a decoded Request object never panics. -/
theorem process_response_some_ne (now : Int) (a b c : Bool) (r : AuditRequest)
    (t er : String) (s : PState) :
    ¬(process now a b c ⟨AuditEventTypeResponse, t, some r, er⟩ s = ProcResult.panicked) := by
  cases b <;> exact fun h => ProcResult.noConfusion h

/-- A fresh put is still found by get within the TTL window. -/
theorem get_set_fresh (c : Cache) (now1 now2 : Int) (k v : String)
    (httl : 0 < c.defaultExpiration) (hwin : now2 ≤ now1 + c.defaultExpiration) :
    Cache.get (Cache.set c now1 k v 0) now2 k = some v := by
  unfold Cache.set Cache.get
  simp only [lookupItem, eq_self_iff_true, if_true, if_pos httl]
  rw [if_neg]
  intro h
  exact absurd h.2 (not_lt.mpr hwin)

/-! ### The claims -/

/-- Claim C1: for a request event followed by a matching response event
processed while the correlation entry is still live within the TTL window,
with both timestamps parsing, the latency histogram series of the response
label tuple receives exactly one observation, equal to the response time
minus the request time in seconds with negative values recorded as-is, and
no other histogram series changes across the pair. -/
theorem c1_latency_observed_once (s0 : PState) (r1 r2 : AuditRequest)
    (treq err1 t2 er2 : String) (now1 now2 T1 T2 : Int) (s1 s2 : PState)
    (hid : r2.id = r1.id)
    (httl : 0 < s0.cache.defaultExpiration)
    (hwin : now2 ≤ now1 + s0.cache.defaultExpiration)
    (hp1 : parseRFC3339Nano treq = some T1)
    (hp2 : parseRFC3339Nano t2 = some T2)
    (h1 : process now1 true true true ⟨AuditEventTypeRequest, treq, some r1, err1⟩ s0
        = ProcResult.ok s1)
    (h2 : process now2 true true true ⟨AuditEventTypeResponse, t2, some r2, er2⟩ s1
        = ProcResult.ok s2) :
    histObs s2.metrics.histogram ⟨r2.operation, r2.path, er2⟩
        = nanosToSeconds (T2 - T1)
            :: histObs s0.metrics.histogram ⟨r2.operation, r2.path, er2⟩
      ∧ ∀ l : Labels, ¬(l = ⟨r2.operation, r2.path, er2⟩) →
          histObs s2.metrics.histogram l = histObs s0.metrics.histogram l := by
  rw [process_request_eq] at h1
  injection h1 with h1
  subst h1
  rw [process_response_eq] at h2
  injection h2 with h2
  have hget : Cache.get (Cache.set s0.cache now1 r1.id treq 0) now2 r2.id = some treq := by
    rw [hid]
    exact get_set_fresh s0.cache now1 now2 r1.id treq httl hwin
  have hs2 : s2.metrics.histogram
      = (observeLatencyM now2 true ⟨AuditEventTypeResponse, t2, some r2, er2⟩ r2
          ⟨Cache.set s0.cache now1 r1.id treq 0,
           { s0.metrics with requests :=
               (incCounter s0.metrics.requests ⟨r1.operation, r1.path, err1⟩) }⟩).histogram := by
    rw [← h2]
  have hhist : (observeLatencyM now2 true ⟨AuditEventTypeResponse, t2, some r2, er2⟩ r2
        ⟨Cache.set s0.cache now1 r1.id treq 0,
         { s0.metrics with requests :=
             (incCounter s0.metrics.requests ⟨r1.operation, r1.path, err1⟩) }⟩).histogram
      = observeHist s0.metrics.histogram ⟨r2.operation, r2.path, er2⟩
          (nanosToSeconds (T2 - T1)) := by
    unfold observeLatencyM
    simp [hget, hp1, hp2]
  constructor
  · rw [hs2, hhist, histObs_observeHist_self]
  · intro l hl
    rw [hs2, hhist, histObs_observeHist_ne _ _ _ _ hl]

/-- Witness for claim C1: a concrete request and response pair whose
response timestamp is one second earlier than the request timestamp, so the
single recorded observation is the negative value minus one. -/
theorem c1_latency_observed_once_witness :
    histObs c1s2.metrics.histogram ⟨"read", "secret/x", ""⟩
        = nanosToSeconds ((1704067201000000000 : Int) - 1704067202000000000)
            :: histObs pState0.metrics.histogram ⟨"read", "secret/x", ""⟩
      ∧ histObs c1s2.metrics.histogram ⟨"other", "other", "other"⟩
          = histObs pState0.metrics.histogram ⟨"other", "other", "other"⟩ := by
  have h := c1_latency_observed_once pState0 ⟨"abc", "read", "secret/x"⟩
    ⟨"abc", "read", "secret/x"⟩ "2024-01-01T00:00:02Z" "" "2024-01-01T00:00:01Z" ""
    0 5 1704067202000000000 1704067201000000000 c1s1 c1s2
    rfl (by decide) (by decide) (by decide) (by decide) rfl rfl
  exact ⟨h.1, h.2 ⟨"other", "other", "other"⟩ (by decide)⟩

/-- Claim C2: processing the concrete request event of the scenario (type
request, id abc, operation read, path secret/x, time 2024-01-01T00:00:00Z)
followed by the matching response event two seconds later with empty Error
yields requests and responses counters of one for the label tuple (read,
secret/x, empty) and exactly one histogram observation of 2.0 seconds. -/
theorem c2_scenario :
    counterValue c2final.metrics.requests ⟨"read", "secret/x", ""⟩ = 1
      ∧ counterValue c2final.metrics.responses ⟨"read", "secret/x", ""⟩ = 1
      ∧ histObs c2final.metrics.histogram ⟨"read", "secret/x", ""⟩ = [(2 : Rat)] := by
  with_unfolding_all decide

/-- Claim C3: a response event whose request id has no live entry in the
correlation store increments the responses counter for its label tuple,
adds no histogram observation, and leaves the store unchanged. -/
theorem c3_response_without_request (now : Int) (t er : String) (r : AuditRequest)
    (s : PState) (hmiss : Cache.get s.cache now r.id = none) :
    process now true true true ⟨AuditEventTypeResponse, t, some r, er⟩ s
      = ProcResult.ok ⟨s.cache,
          { s.metrics with responses :=
              (incCounter s.metrics.responses ⟨r.operation, r.path, er⟩) }⟩ := by
  have hm : observeLatencyM now true ⟨AuditEventTypeResponse, t, some r, er⟩ r s
      = s.metrics := by
    unfold observeLatencyM
    rw [hmiss]
  rw [process_response_eq, hm]

/-- Witness for claim C3: a concrete response with the never-seen id zzz on
the fresh state. -/
theorem c3_response_without_request_witness :
    process 0 true true true
        ⟨AuditEventTypeResponse, "2024-01-01T00:00:02Z", some ⟨"zzz", "read", "p"⟩, ""⟩ pState0
      = ProcResult.ok ⟨pState0.cache,
          { pState0.metrics with responses :=
              (incCounter pState0.metrics.responses ⟨"read", "p", ""⟩) }⟩ :=
  c3_response_without_request 0 "2024-01-01T00:00:02Z" "" ⟨"zzz", "read", "p"⟩ pState0
    (by decide)

/-- Claim C4, counterexample: an entry inserted at instant 0 with TTL one
nanosecond, viewed at instant 5 before any cleanup sweep, has live count
zero by the claim, yet the gauge refresher publishes one and the healthz
body reports one, because the code publishes the raw map size ItemCount. -/
theorem c4_gauge_counts_expired :
    liveCountSpec c4cache 5 = 0
      ∧ monitorStep true c4cache ⟨[], [], [], none⟩
          = MonitorResult.ok ⟨[], [], [], some 1⟩
      ∧ healthzBody c4cache = "\x7b\"timestamp_cache_size\":1\x7d" := by
  with_unfolding_all decide

/-- Claim C4, amended: the gauge refresher and the healthz body publish the
raw map size, the count of entries not superseded and not yet removed by a
sweep; that size may include entries whose TTL has elapsed, bounds the live
count from above, and coincides with the live count right after a sweep. -/
theorem c4_published_size_is_item_count (c : Cache) (now : Int) (m : Metrics) :
    monitorStep true c m = MonitorResult.ok (setCacheSize m (itemCount c))
      ∧ liveCountSpec c now ≤ itemCount c
      ∧ itemCount (Cache.deleteExpired c now) = liveCountSpec c now :=
  ⟨rfl, List.length_filter_le _ _, rfl⟩

/-- Claim C5: when a metric-series acquisition fails, the event processor
logs and returns, dropping the single observation with no other effect; but
one iteration of the gauge refresher, after logging the acquisition error,
still calls Set on the nil observer and panics instead of skipping. -/
theorem c5_monitor_acq_error_panics (c : Cache) (m : Metrics) (now : Int)
    (t er : String) (r : AuditRequest) (s : PState) :
    monitorStep false c m = MonitorResult.panicked
      ∧ process now false true true ⟨AuditEventTypeRequest, t, some r, er⟩ s
          = ProcResult.ok ⟨Cache.set s.cache now r.id t 0, s.metrics⟩ :=
  ⟨rfl, rfl⟩

/-- Claim C6: a matched response whose stored request timestamp or own
timestamp fails to parse skips the latency observation, leaving the
histogram and the store unchanged, but still increments the responses
counter for its label tuple. -/
theorem c6_parse_failure_skips_latency (now : Int) (t er ts : String)
    (r : AuditRequest) (s : PState)
    (hfound : Cache.get s.cache now r.id = some ts)
    (hbad : parseRFC3339Nano ts = none ∨ parseRFC3339Nano t = none) :
    process now true true true ⟨AuditEventTypeResponse, t, some r, er⟩ s
      = ProcResult.ok ⟨s.cache,
          { s.metrics with responses :=
              (incCounter s.metrics.responses ⟨r.operation, r.path, er⟩) }⟩ := by
  have hm : observeLatencyM now true ⟨AuditEventTypeResponse, t, some r, er⟩ r s
      = s.metrics := by
    unfold observeLatencyM
    simp only [hfound]
    rcases hbad with hb | hb
    · simp only [hb]
    · cases hp : parseRFC3339Nano ts with
      | none => simp only [hp]
      | some T1 => simp only [hp, hb]
  rw [process_response_eq, hm]

/-- Witness for claim C6: a response matched to a stored timestamp that is
not an RFC3339 string. -/
theorem c6_parse_failure_skips_latency_witness :
    process 0 true true true
        ⟨AuditEventTypeResponse, "2024-01-01T00:00:02Z", some ⟨"abc", "read", "p"⟩, ""⟩ c6state
      = ProcResult.ok ⟨c6state.cache,
          { c6state.metrics with responses :=
              (incCounter c6state.metrics.responses ⟨"read", "p", ""⟩) }⟩ :=
  c6_parse_failure_skips_latency 0 "2024-01-01T00:00:02Z" "" "garbage"
    ⟨"abc", "read", "p"⟩ c6state (by decide) (Or.inl (by decide))

/-- The two audit event type strings are distinct. -/
theorem respNeReq : ¬(AuditEventTypeResponse = AuditEventTypeRequest) := by decide

/-- The two audit event type strings are distinct, the other way round. -/
theorem reqNeResp : ¬(AuditEventTypeRequest = AuditEventTypeResponse) := by decide

/-- One dispatched step raises the requests counter of a label tuple by one
exactly when the step touches that tuple, and never lowers it. -/
theorem stepRun_requests (i : StepInput) (s : PState) (l : Labels) :
    counterValue (stepRun i s).metrics.requests l
      = counterValue s.metrics.requests l + (if touchesReq l i = true then 1 else 0) := by
  obtain ⟨now, a, b, c, e⟩ := i
  obtain ⟨ty, t, req, er⟩ := e
  by_cases h1 : ty = AuditEventTypeRequest
  · cases req with
    | none => simp [stepRun, stepState, process, respNeReq, reqNeResp, touchesReq, h1]
    | some r =>
      cases a with
      | false => simp [stepRun, stepState, process, respNeReq, reqNeResp, touchesReq, h1]
      | true =>
        by_cases hl : Labels.mk r.operation r.path er = l <;>
          simp [stepRun, stepState, process, respNeReq, reqNeResp, touchesReq, h1, hl, counterValue_incCounter]
  · by_cases h2 : ty = AuditEventTypeResponse
    · cases req with
      | none => simp [stepRun, stepState, process, respNeReq, reqNeResp, touchesReq, h1, h2]
      | some r =>
        cases b with
        | false =>
          simp [stepRun, stepState, process, respNeReq, reqNeResp, touchesReq, h1, h2, observeLatencyM_requests]
        | true =>
          simp [stepRun, stepState, process, respNeReq, reqNeResp, touchesReq, h1, h2, observeLatencyM_requests]
    · simp [stepRun, stepState, process, respNeReq, reqNeResp, touchesReq, h1, h2]

/-- One dispatched step raises the responses counter of a label tuple by one
exactly when the step touches that tuple, and never lowers it. -/
theorem stepRun_responses (i : StepInput) (s : PState) (l : Labels) :
    counterValue (stepRun i s).metrics.responses l
      = counterValue s.metrics.responses l + (if touchesResp l i = true then 1 else 0) := by
  obtain ⟨now, a, b, c, e⟩ := i
  obtain ⟨ty, t, req, er⟩ := e
  by_cases h1 : ty = AuditEventTypeRequest
  · have h2 : ¬(ty = AuditEventTypeResponse) := by
      rw [h1]
      decide
    cases req with
    | none => simp [stepRun, stepState, process, respNeReq, reqNeResp, touchesResp, h1, h2]
    | some r =>
      cases a with
      | false => simp [stepRun, stepState, process, respNeReq, reqNeResp, touchesResp, h1, h2]
      | true => simp [stepRun, stepState, process, respNeReq, reqNeResp, touchesResp, h1, h2]
  · by_cases h2 : ty = AuditEventTypeResponse
    · cases req with
      | none => simp [stepRun, stepState, process, respNeReq, reqNeResp, touchesResp, h1, h2]
      | some r =>
        cases b with
        | false =>
          simp [stepRun, stepState, process, respNeReq, reqNeResp, touchesResp, h1, h2, observeLatencyM_responses]
        | true =>
          by_cases hl : Labels.mk r.operation r.path er = l <;>
            simp [stepRun, stepState, process, respNeReq, reqNeResp, touchesResp, h1, h2,
              observeLatencyM_responses, counterValue_incCounter, hl]
    · simp [stepRun, stepState, process, respNeReq, reqNeResp, touchesResp, h1, h2]

/-- One dispatched step creates the requests series of a label tuple exactly
when it touches that tuple. -/
theorem stepRun_existsReq (i : StepInput) (s : PState) (l : Labels) :
    seriesExists (stepRun i s).metrics.requests l
      = (seriesExists s.metrics.requests l || touchesReq l i) := by
  obtain ⟨now, a, b, c, e⟩ := i
  obtain ⟨ty, t, req, er⟩ := e
  by_cases h1 : ty = AuditEventTypeRequest
  · cases req with
    | none => simp [stepRun, stepState, process, respNeReq, reqNeResp, touchesReq, h1]
    | some r =>
      cases a with
      | false => simp [stepRun, stepState, process, respNeReq, reqNeResp, touchesReq, h1]
      | true => simp [stepRun, stepState, process, respNeReq, reqNeResp, touchesReq, h1, seriesExists_incCounter]
  · by_cases h2 : ty = AuditEventTypeResponse
    · cases req with
      | none => simp [stepRun, stepState, process, respNeReq, reqNeResp, touchesReq, h1, h2]
      | some r =>
        cases b with
        | false =>
          simp [stepRun, stepState, process, respNeReq, reqNeResp, touchesReq, h1, h2, observeLatencyM_requests]
        | true =>
          simp [stepRun, stepState, process, respNeReq, reqNeResp, touchesReq, h1, h2, observeLatencyM_requests]
    · simp [stepRun, stepState, process, respNeReq, reqNeResp, touchesReq, h1, h2]

/-- One dispatched step creates the responses series of a label tuple
exactly when it touches that tuple. -/
theorem stepRun_existsResp (i : StepInput) (s : PState) (l : Labels) :
    seriesExists (stepRun i s).metrics.responses l
      = (seriesExists s.metrics.responses l || touchesResp l i) := by
  obtain ⟨now, a, b, c, e⟩ := i
  obtain ⟨ty, t, req, er⟩ := e
  by_cases h1 : ty = AuditEventTypeRequest
  · have h2 : ¬(ty = AuditEventTypeResponse) := by
      rw [h1]
      decide
    cases req with
    | none => simp [stepRun, stepState, process, respNeReq, reqNeResp, touchesResp, h1, h2]
    | some r =>
      cases a with
      | false => simp [stepRun, stepState, process, respNeReq, reqNeResp, touchesResp, h1, h2]
      | true => simp [stepRun, stepState, process, respNeReq, reqNeResp, touchesResp, h1, h2]
  · by_cases h2 : ty = AuditEventTypeResponse
    · cases req with
      | none => simp [stepRun, stepState, process, respNeReq, reqNeResp, touchesResp, h1, h2]
      | some r =>
        cases b with
        | false =>
          simp [stepRun, stepState, process, respNeReq, reqNeResp, touchesResp, h1, h2, observeLatencyM_responses]
        | true =>
          simp [stepRun, stepState, process, respNeReq, reqNeResp, touchesResp, h1, h2,
            observeLatencyM_responses, seriesExists_incCounter]
    · simp [stepRun, stepState, process, respNeReq, reqNeResp, touchesResp, h1, h2]

/-- Claim C7: across any sequence of dispatched events, the requests and
responses counters of every label tuple are monotonically non-decreasing,
and a counter series exists afterwards exactly when it existed before or
some processed event observed that dimension combination. -/
theorem c7_counters_monotone_lazy (inputs : List StepInput) (s : PState) (l : Labels) :
    counterValue s.metrics.requests l
        ≤ counterValue (runEvents inputs s).metrics.requests l
      ∧ counterValue s.metrics.responses l
          ≤ counterValue (runEvents inputs s).metrics.responses l
      ∧ seriesExists (runEvents inputs s).metrics.requests l
          = (seriesExists s.metrics.requests l || inputs.any (touchesReq l))
      ∧ seriesExists (runEvents inputs s).metrics.responses l
          = (seriesExists s.metrics.responses l || inputs.any (touchesResp l)) := by
  induction inputs generalizing s with
  | nil => simp [runEvents]
  | cons i is ih =>
    obtain ⟨ih1, ih2, ih3, ih4⟩ := ih (stepRun i s)
    refine ⟨?_, ?_, ?_, ?_⟩
    · refine le_trans ?_ ih1
      rw [stepRun_requests]
      exact Nat.le_add_right _ _
    · refine le_trans ?_ ih2
      rw [stepRun_responses]
      exact Nat.le_add_right _ _
    · show seriesExists (runEvents is (stepRun i s)).metrics.requests l = _
      rw [ih3, stepRun_existsReq, List.any_cons, Bool.or_assoc]
    · show seriesExists (runEvents is (stepRun i s)).metrics.responses l = _
      rw [ih4, stepRun_existsResp, List.any_cons, Bool.or_assoc]

/-! ### Lemmas about the connection handler -/

/-- The scanner loop never emits a connection close. -/
theorem countClose_handleLoop (decode : String → Option AuditResponseEntry)
    (ls : List String) (dd : List Bool) :
    countClose (handleLoop decode ls dd) = 0 := by
  induction ls generalizing dd with
  | nil => rfl
  | cons l ls ih =>
    cases dd with
    | nil =>
      have ihs := ih []
      simp only [countClose] at ihs ⊢
      cases hdec : decode l <;>
        simp [handleLoop, hdec, isClose, List.filter_append, ihs]
    | cons b bs =>
      have ihs := ih bs
      simp only [countClose] at ihs ⊢
      cases b with
      | false => simp [handleLoop, isClose, List.filter_append, ihs]
      | true =>
        cases hdec : decode l <;>
          simp [handleLoop, hdec, isClose, List.filter_append, ihs]

/-- Every trace of handle ends with the deferred connection close. -/
theorem getLast_handleTrace (decode : String → Option AuditResponseEntry)
    (lines : List String) (ddl : List Bool) :
    (handleTrace decode lines ddl).getLast? = some HandleOp.closeConn := by
  unfold handleTrace
  rw [List.getLast?_concat]

/-- With every deadline reset succeeding, the scanner loop dispatches
exactly the decodable lines, in order. -/
theorem dispatches_handleLoop (decode : String → Option AuditResponseEntry)
    (ls : List String) (dd : List Bool) (hdd : ∀ b, b ∈ dd → b = true) :
    dispatches (handleLoop decode ls dd) = ls.filterMap decode := by
  induction ls generalizing dd with
  | nil => rfl
  | cons l ls ih =>
    cases dd with
    | nil =>
      have ihs := ih [] (fun b hb => absurd hb (List.not_mem_nil b))
      simp only [dispatches] at ihs ⊢
      cases hdec : decode l <;>
        simp [handleLoop, hdec, dispatchOf, List.filterMap_cons,
          List.filterMap_append, ihs]
    | cons b bs =>
      have hb : b = true := hdd b (List.mem_cons_self b bs)
      have ihs := ih bs (fun x hx => hdd x (List.mem_cons_of_mem b hx))
      simp only [dispatches] at ihs ⊢
      subst hb
      cases hdec : decode l <;>
        simp [handleLoop, hdec, dispatchOf, List.filterMap_cons,
          List.filterMap_append, ihs]

/-- Once a read deadline is armed, every later read in the trace is guarded. -/
theorem readsGuarded_armed (tr : List HandleOp) : readsGuarded true tr = true := by
  induction tr with
  | nil => rfl
  | cons op rest ih => cases op <;> simp [readsGuarded, ih]

/-- Claim C8: a malformed line never crashes the handler or closes the
connection: along the whole trace the undecodable line is skipped, every
decodable line before and after it is still dispatched in order, and the
connection is closed exactly once, at the very end of the trace. -/
theorem c8_malformed_line_skipped (decode : String → Option AuditResponseEntry)
    (xs ys : List String) (bad : String) (ddl : List Bool)
    (hddl : ∀ b, b ∈ ddl → b = true) (hbad : decode bad = none) :
    dispatches (handleTrace decode (xs ++ bad :: ys) ddl)
        = xs.filterMap decode ++ ys.filterMap decode
      ∧ (handleTrace decode (xs ++ bad :: ys) ddl).getLast? = some HandleOp.closeConn
      ∧ countClose (handleTrace decode (xs ++ bad :: ys) ddl) = 1 := by
  refine ⟨?_, getLast_handleTrace decode _ ddl, ?_⟩
  · have h1 := dispatches_handleLoop decode (xs ++ bad :: ys) ddl hddl
    simp only [dispatches] at h1 ⊢
    simp [handleTrace, List.filterMap_append, List.filterMap_cons, hbad, dispatchOf, h1]
  · have h2 := countClose_handleLoop decode (xs ++ bad :: ys) ddl
    simp only [countClose] at h2 ⊢
    simp [handleTrace, List.filter_append, isClose, h2]

/-- Witness for claim C8: one decodable line, then a malformed line, then
another decodable line. -/
theorem c8_malformed_line_skipped_witness :
    dispatches (handleTrace sampleDecode (["good"] ++ "bad" :: ["good"]) [])
        = List.filterMap sampleDecode ["good"] ++ List.filterMap sampleDecode ["good"]
      ∧ (handleTrace sampleDecode (["good"] ++ "bad" :: ["good"]) []).getLast?
          = some HandleOp.closeConn
      ∧ countClose (handleTrace sampleDecode (["good"] ++ "bad" :: ["good"]) []) = 1 :=
  c8_malformed_line_skipped sampleDecode ["good"] ["good"] "bad" []
    (fun b hb => absurd hb (List.not_mem_nil b)) (by decide)

/-- Claim C9, counterexample: on a connection yielding one line, the very
first blocking read happens before any SetReadDeadline call, so not every
read is under a live idle-read deadline as the claim states. -/
theorem c9_first_read_unguarded :
    readsGuarded false (handleTrace sampleDecode ["good"] []) = false := by decide

/-- Claim C9, amended: the deadline is pushed back after each record is
read and before the loop blocks for the next one, so every blocking read
except the wait for the first record happens under a live deadline, and on
loop exit the connection is closed. -/
theorem c9_deadline_reset_after_each_read (decode : String → Option AuditResponseEntry)
    (lines : List String) (ddl : List Bool) (hddl : ∀ b, b ∈ ddl → b = true) :
    readsGuarded false ((handleTrace decode lines ddl).drop 1) = true
      ∧ (handleTrace decode lines ddl).getLast? = some HandleOp.closeConn := by
  refine ⟨?_, getLast_handleTrace decode lines ddl⟩
  cases lines with
  | nil => rfl
  | cons l ls =>
    cases ddl with
    | nil => simp [handleTrace, handleLoop, readsGuarded, readsGuarded_armed]
    | cons b bs =>
      have hb : b = true := hddl b (List.mem_cons_self b bs)
      subst hb
      simp [handleTrace, handleLoop, readsGuarded, readsGuarded_armed]

/-- Witness for claim C9 as amended: two lines with one recorded successful
deadline reset. -/
theorem c9_deadline_reset_after_each_read_witness :
    readsGuarded false ((handleTrace sampleDecode ["good", "bad"] [true]).drop 1) = true
      ∧ (handleTrace sampleDecode ["good", "bad"] [true]).getLast?
          = some HandleOp.closeConn :=
  c9_deadline_reset_after_each_read sampleDecode ["good", "bad"] [true]
    (fun _ hb => List.eq_of_mem_singleton hb)

/-- Claim C10: processing a decoded event of type request or response never
panics exactly when the decoded Request object is present; with an absent
Request, PromLabels and the id accesses dereference a nil pointer. -/
theorem c10_process_total_iff_request (now : Int) (a b c : Bool)
    (e : AuditResponseEntry) (s : PState)
    (ht : e.type = AuditEventTypeRequest ∨ e.type = AuditEventTypeResponse) :
    (¬(process now a b c e s = ProcResult.panicked)) ↔ e.request.isSome = true := by
  obtain ⟨ty, t, req, er⟩ := e
  rcases ht with h | h <;> subst h <;> cases req with
  | none => simp [process_request_none, process_response_none]
  | some r => simp [process_request_some_ne, process_response_some_ne]

/-- Witness for claim C10: a request-typed event without a Request object
panics, and the scenario request event does not. -/
theorem c10_process_total_iff_request_witness :
    process 0 true true true
        ⟨AuditEventTypeRequest, "2024-01-01T00:00:00Z", none, ""⟩ pState0
      = ProcResult.panicked
      ∧ ¬(process 0 true true true c2req pState0 = ProcResult.panicked) := by
  constructor
  · by_contra hnp
    exact absurd
      ((c10_process_total_iff_request 0 true true true
          ⟨AuditEventTypeRequest, "2024-01-01T00:00:00Z", none, ""⟩ pState0
          (Or.inl rfl)).mp hnp)
      (by decide)
  · exact (c10_process_total_iff_request 0 true true true c2req pState0
      (Or.inl rfl)).mpr (by decide)

end VaultAuditMetrics
